import Mathlib

/-!
Verification of the extraction engine in `src/unzip.ts` (class `Unzip` and
class `EntryEvent` of the zip-lib repository).

The engine is event-driven: `extract` opens the archive with yauzl, pulls
entries one at a time with `readEntry`, and materializes each entry
(directory creation, file stream copy, or symlink creation) while supporting
mid-flight cancellation.  The embedding below models

 * the pure helper functions (`modeFromEntry`, `symlinkToFile`,
   `isOverwrite`, the branch structure of `writeEntryToFile`) directly as
   Lean functions on the same data;
 * the error handlers installed by `extract` (the reader's `error` event,
   the `close` event, the per-entry `catch` block, and the post-open
   cancellation check) as pure functions from the cancellation flag and the
   underlying error to the surfaced outcome;
 * the `cancelCallback` slot discipline of `writeEntryToFile` / `cancel` as
   a fold over slot events;
 * the cancellation-free entry loop of `extract` / `handleEntry` /
   `extractEntry` as a trace-producing interpreter `runExtract`: each run
   yields the ordered list of engine actions (folder creation, cursor
   advances via `readEntry`, read-stream opens and ends, writes, symlink
   creations) together with the final entry count and the settled outcome
   of the returned promise.
-/

namespace ZipLib

/-- Errors surfaced by the engine.  `canceled` models the distinguished
error built by `Unzip.canceled()` (name = message = "Canceled");
`underlying c` models any other error (archive reader, filesystem or
stream I/O), tagged by an arbitrary code so that distinct underlying
errors stay distinct. -/
inductive ZError where
  | canceled : ZError
  | underlying (code : String) : ZError
deriving DecidableEq

/-- `IExtractOptions` of `unzip.ts`.  The `onEntry` callback is modelled by
its presence; what the callback does per entry is an input of the
interpreter (`CallbackBehavior`). -/
structure ExtractOptions where
  overwrite : Option Bool
  symlinkAsFileOnWindows : Option Bool
  onEntry : Bool
deriving DecidableEq

/-- The ambient state a `Unzip` instance reads: `process.platform` and the
constructor argument `options` (which may be absent). -/
structure UnzipCtx where
  platform : String
  options : Option ExtractOptions
deriving DecidableEq

/-- Whether an `onEntry` callback is registered (`this.options && this.options.onEntry`,
line 316 of `unzip.ts`). -/
def hasOnEntry (ctx : UnzipCtx) : Bool :=
  match ctx.options with
  | some o => o.onEntry
  | none => false

/-- `Unzip.isOverwrite` (lines 307-313): true exactly when options are
present and `overwrite` is truthy. -/
def isOverwrite (ctx : UnzipCtx) : Bool :=
  match ctx.options with
  | some o => o.overwrite == some true
  | none => false

/-- `Unzip.symlinkToFile` (lines 321-332): false off win32; on win32 it is
false only when `symlinkAsFileOnWindows` is explicitly `false`, else true. -/
def symlinkToFile (ctx : UnzipCtx) : Bool :=
  if ctx.platform = "win32" then
    match ctx.options with
    | some o => if o.symlinkAsFileOnWindows = some false then false else true
    | none => true
  else false

/-- `Unzip.modeFromEntry` (lines 286-292): shift the external-attributes
word right by 16 (the shift then the masks only look at low bits, so the
JS sign extension is immaterial), default to 33188 (`0o100644`) when the
shifted value is 0 (JS `||`), then sum the masks `S_IFMT`, `S_IRWXU`,
`S_IRWXG`, `S_IRWXO` of the attribute. -/
def modeFromEntry (externalFileAttributes : Nat) : Nat :=
  let attr := if externalFileAttributes >>> 16 = 0 then 33188
    else externalFileAttributes >>> 16
  (attr &&& 61440) + (attr &&& 448) + (attr &&& 56) + (attr &&& 7)

/-- One record of the archive: the raw name as `extract` decodes it
(UTF-8, before backslash normalization), the external-attributes word, and
the decompressed stream content as the list of chunks the read stream
yields. -/
structure ZipEntry where
  fileName : List Char
  externalFileAttributes : Nat
  chunks : List (List Char)
deriving DecidableEq

/-- Line 150 of `unzip.ts`: `rawName.replace(/\\/g, "/")`. -/
def normalizeName (rawName : List Char) : List Char :=
  rawName.map fun c => if c = '\\' then '/' else c

/-- Line 212: the test `/\/$/.test(decodeEntryFileName)` — directory file
names end with a slash. -/
def isDirectoryName (fileName : List Char) : Bool :=
  fileName.getLast? == some '/'

/-- Paths the engine hands to the filesystem layer, kept symbolic:
`joined base name` is `path.join(base, name)` and `parentOf p` is
`path.dirname(p)`; `plain` is a path used as given. -/
inductive FsPath where
  | plain (p : String) : FsPath
  | joined (base : String) (name : List Char) : FsPath
  | parentOf (p : FsPath) : FsPath
deriving DecidableEq

/-- The write `writeEntryToFile` (lines 246-284) performs once the read
stream is set up: either a real symlink whose target text is the
concatenated stream content, or a regular-file stream write with the
computed mode. -/
inductive WriteCommand where
  | createSymlinkAt (linkContent : List Char) (des : FsPath) : WriteCommand
  | writeFileStream (filePath : FsPath) (mode : Nat) : WriteCommand
deriving DecidableEq

/-- The branch structure of `writeEntryToFile` (lines 255-279): compute the
mode, test the POSIX symlink type bits, and pick the real-symlink path
exactly when the entry is a symlink and `symlinkToFile()` is false; the
symlink target is the stream content accumulated chunk by chunk
(lines 263-273). -/
def writeEntryCommand (ctx : UnzipCtx) (entry : ZipEntry) (filePath : FsPath) :
    WriteCommand :=
  let mode := modeFromEntry entry.externalFileAttributes
  let isSymlink := (mode &&& 61440) == 40960
  if isSymlink && !(symlinkToFile ctx) then
    WriteCommand.createSymlinkAt (entry.chunks.foldl (fun a c => a ++ c) []) filePath
  else
    WriteCommand.writeFileStream filePath mode

/-- The observable actions of one extraction run, in order.  `entryStart`
records the value of the shared event's `isPrevented` flag at the moment
the `entry` handler begins; `readEntry` is a cursor advance request;
`entryDone n` is the per-entry accounting `extractedEntriesCount++`
reaching `n`. -/
inductive EngineAction where
  | entryStart (name : List Char) (isPrevented : Bool) : EngineAction
  | onEntryCall (name : List Char) : EngineAction
  | ensureFolder (p : FsPath) : EngineAction
  | readEntry : EngineAction
  | openReadStream (name : List Char) : EngineAction
  | registerCancelCallback : EngineAction
  | streamEnd (name : List Char) : EngineAction
  | writeFileStart (p : FsPath) (mode : Nat) : EngineAction
  | symlinkCreate (linkContent : List Char) (p : FsPath) : EngineAction
  | entryDone (count : Nat) : EngineAction
  | rimrafTarget (t : String) : EngineAction
  | openZipCall : EngineAction
deriving DecidableEq

/-- `Unzip.extractEntry` (lines 236-244) followed by `writeEntryToFile`:
ensure the parent folder of the target path, open the read stream,
register the cancel callback, then either (symlink path) accumulate the
content and at stream end advance the cursor — the `end` handler of
`extractEntry`, registered first, runs before the symlink creation — or
(file path) start the destination stream, and at stream end advance the
cursor before the destination finishes closing. -/
def extractEntryTrace (ctx : UnzipCtx) (targetPath : String) (entry : ZipEntry) :
    List EngineAction :=
  let name := normalizeName entry.fileName
  let filePath := FsPath.joined targetPath name
  [EngineAction.ensureFolder (FsPath.parentOf filePath),
   EngineAction.openReadStream name,
   EngineAction.registerCancelCallback] ++
    match writeEntryCommand ctx entry filePath with
    | WriteCommand.createSymlinkAt c p =>
        [EngineAction.streamEnd name, EngineAction.readEntry,
         EngineAction.symlinkCreate c p]
    | WriteCommand.writeFileStream p m =>
        [EngineAction.writeFileStart p m, EngineAction.streamEnd name,
         EngineAction.readEntry]

/-- `Unzip.handleEntry` (lines 211-222): a name ending in a slash is a
directory entry — ensure the folder then advance, no stream opened;
otherwise extract a file entry. -/
def handleEntryTrace (ctx : UnzipCtx) (targetPath : String) (entry : ZipEntry) :
    List EngineAction :=
  let name := normalizeName entry.fileName
  if isDirectoryName name then
    [EngineAction.ensureFolder (FsPath.joined targetPath name), EngineAction.readEntry]
  else
    extractEntryTrace ctx targetPath entry

/-- What the caller's `onEntry` callback does for one entry: return
normally, call `preventDefault()`, or throw. -/
inductive CallbackBehavior where
  | normal : CallbackBehavior
  | prevent : CallbackBehavior
  | throws : CallbackBehavior
deriving DecidableEq

/-- Result of one `entry` handler invocation (lines 145-172): its emitted
actions, the shared prevented flag afterwards, the entry count afterwards,
and whether an exception escaped the handler (which happens exactly when
the callback throws, since the callback runs before the `try`). -/
structure StepResult where
  trace : List EngineAction
  flagAfter : Bool
  countAfter : Nat
  escaped : Bool
deriving DecidableEq

/-- One `entry` handler invocation: record the flag, invoke the callback if
registered (a throwing callback escapes before the `try` block), then
either skip (reset the flag, advance the cursor) when the flag is set, or
materialize via `handleEntry`; finally account the entry. -/
def entryStep (ctx : UnzipCtx) (targetPath : String) (entry : ZipEntry)
    (b : CallbackBehavior) (flag : Bool) (count : Nat) : StepResult :=
  let name := normalizeName entry.fileName
  let cbTrace := if hasOnEntry ctx then [EngineAction.onEntryCall name] else []
  let flag1 := flag || (hasOnEntry ctx && b == CallbackBehavior.prevent)
  if hasOnEntry ctx && b == CallbackBehavior.throws then
    ⟨EngineAction.entryStart name flag :: cbTrace, flag1, count, true⟩
  else if flag1 then
    ⟨EngineAction.entryStart name flag :: cbTrace ++
      [EngineAction.readEntry, EngineAction.entryDone (count + 1)],
     false, count + 1, false⟩
  else
    ⟨EngineAction.entryStart name flag :: cbTrace ++
      handleEntryTrace ctx targetPath entry ++
      [EngineAction.entryDone (count + 1)],
     flag1, count + 1, false⟩

/-- How the promise returned by `extract` ends in a cancellation-free,
error-free run: `resolved` (the success callback `c` ran), `escaped` (an
exception left the `entry` handler without touching the promise), or
`pending` (not settled). -/
inductive Outcome where
  | resolved : Outcome
  | escaped : Outcome
  | pending : Outcome
deriving DecidableEq

/-- The entry loop: entries are delivered in archive order, each one
processed by `entryStep`; a handler the callback escapes from stops the
loop (it never calls `readEntry`), and the success callback runs when the
accounted count reaches `total`.  Returns the emitted trace, the final
count and the promise outcome contributed by the loop. -/
def runLoop (ctx : UnzipCtx) (targetPath : String) (total : Nat) :
    List (ZipEntry × CallbackBehavior) → Bool → Nat →
      List EngineAction × Nat × Outcome
  | [], _, count => ([], count, Outcome.pending)
  | (entry, b) :: rest, flag, count =>
    let s := entryStep ctx targetPath entry b flag count
    if s.escaped then
      (s.trace, s.countAfter, Outcome.escaped)
    else
      let r := runLoop ctx targetPath total rest s.flagAfter s.countAfter
      (s.trace ++ r.1, r.2.1,
       if s.countAfter == total then Outcome.resolved else r.2.2)

/-- A cancellation-free, I/O-error-free run of `Unzip.extract` (lines
103-174): optional recursive delete of the target, ensure the target
folder, open the archive, issue the first `readEntry`, run the entry loop;
an archive with zero entries resolves through the `close` handler
(lines 129-137). -/
def runExtract (ctx : UnzipCtx) (targetPath : String)
    (entries : List (ZipEntry × CallbackBehavior)) :
    List EngineAction × Nat × Outcome :=
  let total := entries.length
  let pre : List EngineAction :=
    (if isOverwrite ctx then [EngineAction.rimrafTarget targetPath] else []) ++
      [EngineAction.ensureFolder (FsPath.plain targetPath),
       EngineAction.openZipCall, EngineAction.readEntry]
  let r := runLoop ctx targetPath total entries false 0
  (pre ++ r.1, r.2.1, if total == 0 then Outcome.resolved else r.2.2)

/-- Read-cursor discipline scanner: walk a trace tracking whether a read
stream is open; opening a second stream while one is open, or requesting
the next entry (`readEntry`) while a stream is open, is a violation
(`none`).  Returns the open flag after the trace otherwise. -/
def scanStep (opened : Bool) : EngineAction → Option Bool
  | EngineAction.openReadStream _ => if opened then none else some true
  | EngineAction.streamEnd _ => some false
  | EngineAction.readEntry => if opened then none else some opened
  | _ => some opened

/-- Fold `scanStep` over a trace. -/
def scanStreams : List EngineAction → Bool → Option Bool
  | [], opened => some opened
  | a :: rest, opened =>
    match scanStep opened a with
    | none => none
    | some o2 => scanStreams rest o2

/-- The `error` event handler of `extract` (lines 118-128): when the cancel
flag is set the surfaced error is the Canceled error regardless of the
underlying error, else the underlying error. -/
def errorEventHandler (isCanceled : Bool) (err : ZError) : ZError :=
  if isCanceled then ZError.canceled else err

/-- The `close` event handler (lines 129-137): when the cancel flag is set
it rejects with Canceled; otherwise it resolves exactly for a zero-entry
archive, and does nothing for a nonempty one. -/
def closeEventHandler (isCanceled : Bool) (total : Nat) :
    Option (Except ZError Unit) :=
  if isCanceled then some (Except.error ZError.canceled)
  else if total = 0 then some (Except.ok ()) else none

/-- What the per-entry `catch` block does (lines 164-171): the surfaced
rejection and whether `closeZip` ran. -/
structure CatchResult where
  surfaced : ZError
  closedZip : Bool
deriving DecidableEq

/-- The per-entry `catch` block: cancellation masks the caught error; only
the non-canceled path closes the archive there (cancel() itself closed it
on the other path). -/
def entryCatchHandler (isCanceled : Bool) (err : ZError) : CatchResult :=
  if isCanceled then ⟨ZError.canceled, false⟩ else ⟨err, true⟩

/-- Observable effect of the cancellation check placed after `openZip`
returns (lines 138-143). -/
structure PostOpenCheck where
  zipClosed : Bool
  entryHandlerRegistered : Bool
deriving DecidableEq

/-- The post-open check: if cancellation was requested while the open was
in flight, close the fresh handle and return before the `entry` handler is
installed; otherwise proceed and install it. -/
def postOpenCheck (isCanceled : Bool) : PostOpenCheck :=
  if isCanceled then ⟨true, false⟩ else ⟨false, true⟩

/-- Events touching the `cancelCallback` slot of a `Unzip` instance:
`startWrite` is the assignment at the top of `writeEntryToFile`
(line 248); `cancelCall` is `cancel()` (lines 180-186), whose invoked
callback clears the slot (line 249) and which leaves an empty slot empty;
`writeClose` is the destination stream closing normally (line 276), which
per the source does not touch the slot. -/
inductive WriteEvent where
  | startWrite : WriteEvent
  | cancelCall : WriteEvent
  | writeClose : WriteEvent
deriving DecidableEq

/-- The slot content (registered or not) after one event. -/
def cancelCallbackStep (registered : Bool) : WriteEvent → Bool
  | WriteEvent.startWrite => true
  | WriteEvent.cancelCall => false
  | WriteEvent.writeClose => registered

/-- The slot content after a sequence of events. -/
def cancelCallbackRun (events : List WriteEvent) (registered : Bool) : Bool :=
  events.foldl cancelCallbackStep registered

/-- True for every action except an `entryStart` whose recorded
`isPrevented` flag is set: used to state that the shared event object is
reset before every entry. -/
def entryStartFlagOk : EngineAction → Bool
  | EngineAction.entryStart _ f => !f
  | _ => true

/-- Whether an action is an invocation of the caller's `onEntry` callback. -/
def isOnEntryCallAction : EngineAction → Bool
  | EngineAction.onEntryCall _ => true
  | _ => false

/-- Follows the spec's words for the symlink policy: materialize real
symlinks on every platform except win32, and on win32 exactly when the
caller set `symlinkAsFileOnWindows` explicitly to false.  Compared against
the source-derived `symlinkToFile` in claim C9. -/
def specRealSymlinkPolicy (ctx : UnzipCtx) : Bool :=
  !(ctx.platform == "win32") ||
    (match ctx.options with
     | some o => o.symlinkAsFileOnWindows == some false
     | none => false)

/-! ### Arithmetic helpers for the mode computation -/

lemma and_two_mul (x y : Nat) : x &&& (2 * y) = 2 * (x / 2 &&& y) := by
  have h2y : (2 * y) / 2 = y := by omega
  have hd : (x &&& (2 * y)) / 2 = x / 2 &&& y := by
    rw [Nat.and_div_two, h2y]
  have hm : (x &&& (2 * y)) % 2 = 0 := by
    have hiff := Nat.and_mod_two_eq_one (a := x) (b := 2 * y)
    generalize hz : (x &&& (2 * y)) % 2 = z at hiff
    have hlt : z < 2 := by rw [← hz]; exact Nat.mod_lt _ (by norm_num)
    rcases hiff with ⟨h1, _⟩
    have : ¬(x % 2 = 1 ∧ (2 * y) % 2 = 1) := by omega
    omega
  omega

lemma and_two_pow_mul (k x y : Nat) :
    x &&& (2 ^ k * y) = 2 ^ k * ((x >>> k) &&& y) := by
  induction k generalizing x with
  | zero => simp
  | succ k ih =>
    have h1 : 2 ^ (k + 1) * y = 2 * (2 ^ k * y) := by ring
    have h2 : x >>> (k + 1) = (x / 2) >>> k := by
      rw [Nat.add_comm, Nat.shiftRight_add, Nat.shiftRight_one]
    rw [h1, and_two_mul, ih, h2]
    ring

lemma and_61440 (a : Nat) : a &&& 61440 = a / 4096 % 16 * 4096 := by
  have h : (61440 : Nat) = 2 ^ 12 * 15 := by norm_num
  have h15 : (15 : Nat) = 2 ^ 4 - 1 := by norm_num
  rw [h, and_two_pow_mul, Nat.shiftRight_eq_div_pow, h15,
    Nat.and_pow_two_sub_one_eq_mod]
  norm_num [Nat.mul_comm]

lemma and_448 (a : Nat) : a &&& 448 = a / 64 % 8 * 64 := by
  have h : (448 : Nat) = 2 ^ 6 * 7 := by norm_num
  have h7 : (7 : Nat) = 2 ^ 3 - 1 := by norm_num
  rw [h, and_two_pow_mul, Nat.shiftRight_eq_div_pow, h7,
    Nat.and_pow_two_sub_one_eq_mod]
  norm_num [Nat.mul_comm]

lemma and_56 (a : Nat) : a &&& 56 = a / 8 % 8 * 8 := by
  have h : (56 : Nat) = 2 ^ 3 * 7 := by norm_num
  have h7 : (7 : Nat) = 2 ^ 3 - 1 := by norm_num
  rw [h, and_two_pow_mul, Nat.shiftRight_eq_div_pow, h7,
    Nat.and_pow_two_sub_one_eq_mod]
  norm_num [Nat.mul_comm]

lemma and_7 (a : Nat) : a &&& 7 = a % 8 := by
  have h7 : (7 : Nat) = 2 ^ 3 - 1 := by norm_num
  rw [h7, Nat.and_pow_two_sub_one_eq_mod]

/-- The mask sum of `modeFromEntry` in divide-and-remainder form: the
file-type nibble (bits 12-15) plus the rwx bits (bits 0-8); the
setuid, setgid and sticky bits (bits 9-11) are dropped. -/
lemma maskSum_eq (a : Nat) :
    (a &&& 61440) + (a &&& 448) + (a &&& 56) + (a &&& 7) =
      a % 512 + a / 4096 % 16 * 4096 := by
  rw [and_61440, and_448, and_56, and_7]
  omega

/-! ### Read-cursor discipline lemmas -/

lemma scanStreams_append (xs ys : List EngineAction) (b : Bool) :
    scanStreams (xs ++ ys) b =
      (scanStreams xs b).bind fun o => scanStreams ys o := by
  induction xs generalizing b with
  | nil => simp [scanStreams]
  | cons a rest ih =>
    simp only [List.cons_append, scanStreams]
    cases h : scanStep b a with
    | none => simp
    | some o2 => simp [ih]

lemma scan_handleEntryTrace (ctx : UnzipCtx) (t : String) (e : ZipEntry) :
    scanStreams (handleEntryTrace ctx t e) false = some false := by
  unfold handleEntryTrace extractEntryTrace
  cases hd : isDirectoryName (normalizeName e.fileName) with
  | false =>
    simp only [hd, Bool.false_eq_true, if_false]
    cases hw : writeEntryCommand ctx e
        (FsPath.joined t (normalizeName e.fileName)) <;>
      simp [hw, scanStreams, scanStep]
  | true => simp [hd, scanStreams, scanStep]

lemma scan_entryStep (ctx : UnzipCtx) (t : String) (e : ZipEntry)
    (b : CallbackBehavior) (flag : Bool) (count : Nat) :
    scanStreams (entryStep ctx t e b flag count).trace false = some false := by
  cases hco : hasOnEntry ctx <;> cases b <;> cases flag <;>
    simp [entryStep, hco, beq_iff_eq, scanStreams, scanStep,
      scanStreams_append, scan_handleEntryTrace]

lemma scan_runLoop (es : List (ZipEntry × CallbackBehavior)) :
    ∀ (ctx : UnzipCtx) (t : String) (total : Nat) (flag : Bool) (count : Nat),
      scanStreams (runLoop ctx t total es flag count).1 false = some false := by
  induction es with
  | nil => intro ctx t total flag count; simp [runLoop, scanStreams]
  | cons p rest ih =>
    intro ctx t total flag count
    rcases p with ⟨e, b⟩
    simp only [runLoop]
    split
    · exact scan_entryStep ctx t e b flag count
    · simp [scanStreams_append, scan_entryStep, ih]

lemma scan_runExtract (ctx : UnzipCtx) (t : String)
    (es : List (ZipEntry × CallbackBehavior)) :
    scanStreams (runExtract ctx t es).1 false = some false := by
  unfold runExtract
  cases ho : isOverwrite ctx <;>
    simp [ho, scanStreams_append, scanStreams, scanStep, scan_runLoop]

/-! ### Prevented-flag lemmas -/

lemma all_flagOk_handleEntryTrace (ctx : UnzipCtx) (t : String) (e : ZipEntry) :
    (handleEntryTrace ctx t e).all entryStartFlagOk = true := by
  unfold handleEntryTrace extractEntryTrace
  cases hd : isDirectoryName (normalizeName e.fileName) with
  | false =>
    simp only [hd, Bool.false_eq_true, if_false]
    cases hw : writeEntryCommand ctx e
        (FsPath.joined t (normalizeName e.fileName)) <;>
      simp [hw, entryStartFlagOk]
  | true => simp [hd, entryStartFlagOk]

lemma all_flagOk_entryStep (ctx : UnzipCtx) (t : String) (e : ZipEntry)
    (b : CallbackBehavior) (count : Nat) :
    ((entryStep ctx t e b false count).trace.all entryStartFlagOk) = true := by
  have hall := all_flagOk_handleEntryTrace ctx t e
  cases hco : hasOnEntry ctx <;> cases b <;>
    simp [entryStep, hco, beq_iff_eq, entryStartFlagOk, List.all_append, hall]

lemma entryStep_flagAfter (ctx : UnzipCtx) (t : String) (e : ZipEntry)
    (b : CallbackBehavior) (count : Nat) :
    (entryStep ctx t e b false count).flagAfter = false := by
  cases hco : hasOnEntry ctx <;> cases b <;>
    simp [entryStep, hco, beq_iff_eq]

lemma all_flagOk_runLoop (es : List (ZipEntry × CallbackBehavior)) :
    ∀ (ctx : UnzipCtx) (t : String) (total : Nat) (count : Nat),
      ((runLoop ctx t total es false count).1.all entryStartFlagOk) = true := by
  induction es with
  | nil => intro ctx t total count; simp [runLoop]
  | cons p rest ih =>
    intro ctx t total count
    rcases p with ⟨e, b⟩
    simp only [runLoop]
    split
    · exact all_flagOk_entryStep ctx t e b count
    · simp [List.all_append, all_flagOk_entryStep, entryStep_flagAfter, ih]

lemma entryStep_escaped (ctx : UnzipCtx) (t : String) (e : ZipEntry)
    (b : CallbackBehavior) (flag : Bool) (count : Nat) :
    (entryStep ctx t e b flag count).escaped =
      (hasOnEntry ctx && b == CallbackBehavior.throws) := by
  cases hco : hasOnEntry ctx <;> cases b <;> cases flag <;>
    simp [entryStep, hco, beq_iff_eq]

lemma entryStep_countAfter (ctx : UnzipCtx) (t : String) (e : ZipEntry)
    (b : CallbackBehavior) (flag : Bool) (count : Nat) :
    (entryStep ctx t e b flag count).countAfter =
      if (hasOnEntry ctx && b == CallbackBehavior.throws) = true then count
      else count + 1 := by
  cases hco : hasOnEntry ctx <;> cases b <;> cases flag <;>
    simp [entryStep, hco, beq_iff_eq]

lemma all_flagOk_runExtract (ctx : UnzipCtx) (t : String)
    (es : List (ZipEntry × CallbackBehavior)) :
    ((runExtract ctx t es).1.all entryStartFlagOk) = true := by
  unfold runExtract
  cases ho : isOverwrite ctx <;>
    simp [ho, List.all_append, entryStartFlagOk, all_flagOk_runLoop]

/-! ### Accounting and outcome lemmas -/

lemma any_of_all_false {α : Type} (f : α → Bool) (l : List α)
    (h : (l.all fun x => !f x) = false) : (l.any f) = true := by
  induction l with
  | nil => simp at h
  | cons a rest ih =>
    simp only [List.all_cons] at h
    simp only [List.any_cons]
    cases hfa : f a with
    | true => simp
    | false =>
      simp only [hfa, Bool.not_false, Bool.true_and] at h
      simp only [hfa, Bool.false_or]
      exact ih h

lemma runLoop_clean (es : List (ZipEntry × CallbackBehavior)) :
    ∀ (ctx : UnzipCtx) (t : String) (count total : Nat),
      total = count + es.length →
      (es.all fun p => !(hasOnEntry ctx && p.2 == CallbackBehavior.throws)) = true →
      (runLoop ctx t total es false count).2.1 = total ∧
      (es ≠ [] → (runLoop ctx t total es false count).2.2 = Outcome.resolved) := by
  induction es with
  | nil =>
    intro ctx t count total htot h
    simp [runLoop, htot]
  | cons p rest ih =>
    intro ctx t count total htot hall
    rcases p with ⟨e, b⟩
    simp only [List.length_cons] at htot
    simp only [List.all_cons, Bool.and_eq_true, Bool.not_eq_eq_eq_not,
      Bool.not_true] at hall
    rcases hall with ⟨h1, h2⟩
    have hesc : (entryStep ctx t e b false count).escaped = false := by
      rw [entryStep_escaped]; exact h1
    have hcount : (entryStep ctx t e b false count).countAfter = count + 1 := by
      rw [entryStep_countAfter]; simp [h1]
    have hflag := entryStep_flagAfter ctx t e b count
    simp only [runLoop, hesc, hcount, hflag, Bool.false_eq_true, if_false]
    cases rest with
    | nil =>
      simp only [List.length_nil] at htot
      have htot2 : total = count + 1 := by omega
      simp [runLoop, htot2]
    | cons q qs =>
      have hql : (q :: qs).length = qs.length + 1 := by simp
      have htot2 : total = (count + 1) + (q :: qs).length := by omega
      have hr := ih ctx t (count + 1) total htot2 h2
      have hne : ((count + 1) == total) = false := by
        apply beq_eq_false_iff_ne.mpr
        omega
      rw [hne]
      constructor
      · exact hr.1
      · intro hnil2
        simp only [Bool.false_eq_true, if_false]
        exact hr.2 (by simp)

lemma runLoop_throw (es : List (ZipEntry × CallbackBehavior)) :
    ∀ (ctx : UnzipCtx) (t : String) (count total : Nat),
      total = count + es.length →
      (es.any fun p => hasOnEntry ctx && p.2 == CallbackBehavior.throws) = true →
      (runLoop ctx t total es false count).2.2 = Outcome.escaped ∧
      (runLoop ctx t total es false count).2.1 < total := by
  induction es with
  | nil => intro ctx t count total h1 h2; simp at h2
  | cons p rest ih =>
    intro ctx t count total htot hany
    rcases p with ⟨e, b⟩
    simp only [List.length_cons] at htot
    simp only [List.any_cons, Bool.or_eq_true] at hany
    cases heff : (hasOnEntry ctx && b == CallbackBehavior.throws) with
    | true =>
      have hesc : (entryStep ctx t e b false count).escaped = true := by
        rw [entryStep_escaped]; exact heff
      have hcount : (entryStep ctx t e b false count).countAfter = count := by
        rw [entryStep_countAfter]; simp [heff]
      simp only [runLoop, hesc, if_true, hcount]
      refine ⟨by simp, by omega⟩
    | false =>
      have hrest : (rest.any fun p => hasOnEntry ctx &&
          p.2 == CallbackBehavior.throws) = true := by
        rcases hany with h | h
        · rw [heff] at h; cases h
        · exact h
      have hrne : rest ≠ [] := by
        intro hr; rw [hr] at hrest; simp at hrest
      have hesc : (entryStep ctx t e b false count).escaped = false := by
        rw [entryStep_escaped]; exact heff
      have hcount : (entryStep ctx t e b false count).countAfter = count + 1 := by
        rw [entryStep_countAfter]; simp [heff]
      have hflag := entryStep_flagAfter ctx t e b count
      have hrlen : rest.length ≥ 1 := by
        cases rest with
        | nil => exact absurd rfl hrne
        | cons q qs => simp
      have hne : ((count + 1) == total) = false := by
        apply beq_eq_false_iff_ne.mpr
        omega
      simp only [runLoop, hesc, Bool.false_eq_true, if_false, hcount, hflag, hne]
      have htot2 : total = (count + 1) + rest.length := by omega
      exact ih ctx t (count + 1) total htot2 hrest

lemma runExtract_resolved_iff (ctx : UnzipCtx) (t : String)
    (es : List (ZipEntry × CallbackBehavior)) :
    ((runExtract ctx t es).2.2 = Outcome.resolved) ↔
      ((runExtract ctx t es).2.1 = es.length) := by
  cases es with
  | nil => simp [runExtract, runLoop]
  | cons p rest =>
    have hbe : (((p :: rest).length : Nat) == 0) = false := by
      apply beq_eq_false_iff_ne.mpr; simp
    simp only [runExtract, hbe, Bool.false_eq_true, if_false]
    cases hall : ((p :: rest).all fun q =>
        !(hasOnEntry ctx && q.2 == CallbackBehavior.throws)) with
    | true =>
      have hc := runLoop_clean (p :: rest) ctx t 0 (p :: rest).length
        (by omega) hall
      have h1 := hc.1
      have h2 := hc.2 (by simp)
      simp only [List.length_cons] at h1 h2
      simp [h1, h2]
    | false =>
      have hany := any_of_all_false _ _ hall
      have ht := runLoop_throw (p :: rest) ctx t 0 (p :: rest).length
        (by omega) hany
      rw [ht.1]
      have hne2 : (runLoop ctx t (p :: rest).length (p :: rest) false 0).2.1 ≠
          (p :: rest).length := by
        have h2 := ht.2; omega
      constructor
      · intro h; simp at h
      · intro h; exact absurd h hne2

lemma runExtract_escaped (ctx : UnzipCtx) (t : String)
    (es : List (ZipEntry × CallbackBehavior))
    (h : (es.any fun q => hasOnEntry ctx && q.2 == CallbackBehavior.throws) = true) :
    (runExtract ctx t es).2.2 = Outcome.escaped := by
  cases es with
  | nil => simp at h
  | cons p rest =>
    have hbe : (((p :: rest).length : Nat) == 0) = false := by
      apply beq_eq_false_iff_ne.mpr; simp
    simp only [runExtract, hbe, Bool.false_eq_true, if_false]
    exact (runLoop_throw (p :: rest) ctx t 0 (p :: rest).length (by omega) h).1

/-! ### The claims -/

/-- Claim C1: in every error path of `extract` — the archive reader's
`error` event (lines 118-128), the per-entry handler's `catch`
(lines 164-171), and the `close` event (lines 129-137) — when the
cancellation flag is set the surfaced error is the distinguished Canceled
error regardless of the underlying error's content, and the `close` path
rejects with Canceled rather than resolving; so a canceled run never
surfaces success or a different error type through these paths. -/
theorem claim_C1 (err : ZError) (total : Nat) :
    errorEventHandler true err = ZError.canceled ∧
    (entryCatchHandler true err).surfaced = ZError.canceled ∧
    closeEventHandler true total = some (Except.error ZError.canceled) :=
  ⟨rfl, rfl, rfl⟩

/-- Claim C2: the cursor discipline of the engine: over every run the
read-cursor scanner accepts — `readEntry` is never requested while an
entry's read stream is open (for a file entry the advance happens only
after that entry's stream signaled its end), and no two read streams are
ever open concurrently; for a directory entry the advance follows the
directory creation, with no stream opened at all. -/
theorem claim_C2 (ctx : UnzipCtx) (t : String)
    (es : List (ZipEntry × CallbackBehavior)) (e : ZipEntry) :
    scanStreams (runExtract ctx t es).1 false = some false ∧
    (isDirectoryName (normalizeName e.fileName) = true →
      handleEntryTrace ctx t e =
        [EngineAction.ensureFolder (FsPath.joined t (normalizeName e.fileName)),
         EngineAction.readEntry]) := by
  constructor
  · exact scan_runExtract ctx t es
  · intro hd; simp [handleEntryTrace, hd]

/-- Claim C3 counterexample: the attribute word whose high 16 bits are
35309 (octal 0o104755: setuid regular file, rwxr-xr-x) yields computed
mode 33261 (octal 0o100755), not 35309 — the high bits are not used
directly, the setuid bit is dropped. -/
theorem claim_C3_cex :
    (2314010624 : Nat) >>> 16 = 35309 ∧
    modeFromEntry 2314010624 = 33261 ∧
    (decide (modeFromEntry 2314010624 = 2314010624 >>> 16)) = false := by
  decide

/-- Claim C3 (amended): the computed mode equals 0o100644 (33188) when the
high 16 bits of the attribute word are zero; when they are nonzero it
equals those bits with the setuid, setgid and sticky bits cleared — the
low nine permission bits plus the file-type nibble — rather than the high
16 bits used directly. -/
theorem claim_C3_amended (externalFileAttributes : Nat) :
    (externalFileAttributes >>> 16 = 0 →
      modeFromEntry externalFileAttributes = 33188) ∧
    (externalFileAttributes >>> 16 ≠ 0 →
      modeFromEntry externalFileAttributes =
        (externalFileAttributes >>> 16) % 512 +
          (externalFileAttributes >>> 16) / 4096 % 16 * 4096) := by
  constructor
  · intro h
    simp only [modeFromEntry, h]
    decide
  · intro h
    simp only [modeFromEntry, if_neg h]
    exact maskSum_eq _

/-- Claim C4 counterexample: start a write and let it complete normally,
with no cancel in between; the cancel-callback slot is still registered
afterwards — `writeEntryToFile` never clears the slot when the write
completes normally, contradicting the claim that it is cleared at the
earlier of invocation and normal completion. -/
theorem claim_C4_cex :
    cancelCallbackRun [WriteEvent.startWrite, WriteEvent.writeClose] false = true ∧
    (decide (cancelCallbackRun [WriteEvent.startWrite, WriteEvent.writeClose] false
      = false)) = false := by
  decide

/-- Claim C4 (amended): the slot holds at most one callback by
construction (a single field), and it is cleared exactly when cancel()
invokes it; starting a write registers the new callback (overwriting any
stale one), but a write completing normally leaves the slot untouched, so
a callback from an already-completed write stays registered until the
next write starts or cancel() is called. -/
theorem claim_C4_amended (events : List WriteEvent) (registered : Bool) :
    cancelCallbackRun (events ++ [WriteEvent.cancelCall]) registered = false ∧
    cancelCallbackRun (events ++ [WriteEvent.startWrite]) registered = true ∧
    cancelCallbackRun (events ++ [WriteEvent.writeClose]) registered =
      cancelCallbackRun events registered := by
  refine ⟨?_, ?_, ?_⟩ <;>
    simp [cancelCallbackRun, List.foldl_append, cancelCallbackStep]

/-- Claim C5: when cancellation was requested while the asynchronous open
was in flight, the check placed right after `openZip` returns closes the
fresh handle immediately and skips installing the `entry` handler, and the
ensuing `close` event rejects the operation with the Canceled error — the
run fails with Canceled instead of proceeding to process entries. -/
theorem claim_C5 (total : Nat) :
    postOpenCheck true = ⟨true, false⟩ ∧
    closeEventHandler true total = some (Except.error ZError.canceled) :=
  ⟨rfl, rfl⟩

/-- Claim C6: an archive with zero entries resolves successfully (through
the reader's `close` signal) rather than hanging, and the `onEntry`
callback is never invoked during the run. -/
theorem claim_C6 (ctx : UnzipCtx) (t : String) :
    (runExtract ctx t []).2.2 = Outcome.resolved ∧
    ((runExtract ctx t []).1.all fun a => !(isOnEntryCallAction a)) = true := by
  constructor
  · rfl
  · cases ho : isOverwrite ctx <;>
      simp [runExtract, runLoop, ho, isOnEntryCallAction]

/-- Claim C7: a prevented entry writes nothing — its whole handler trace
is the recorded start, the callback invocation, the cursor advance and the
accounting, with the prevented flag reset to false before the advance and
the entry still counted; the shared event's prevented flag is false at the
start of processing every entry of every run; and the run resolves
successfully exactly when the count of accounted-for entries reaches the
total entry count. -/
theorem claim_C7 (p t : String) (ov sf : Option Bool) (e : ZipEntry)
    (count : Nat) (ctx : UnzipCtx) (es : List (ZipEntry × CallbackBehavior)) :
    entryStep ⟨p, some ⟨ov, sf, true⟩⟩ t e CallbackBehavior.prevent false count =
      ⟨[EngineAction.entryStart (normalizeName e.fileName) false,
        EngineAction.onEntryCall (normalizeName e.fileName),
        EngineAction.readEntry, EngineAction.entryDone (count + 1)],
       false, count + 1, false⟩ ∧
    ((runExtract ctx t es).1.all entryStartFlagOk) = true ∧
    (((runExtract ctx t es).2.2 = Outcome.resolved) ↔
      (runExtract ctx t es).2.1 = es.length) :=
  ⟨rfl, all_flagOk_runExtract ctx t es, runExtract_resolved_iff ctx t es⟩

/-- Claim C8: for a directory entry (normalized decoded name ending in a
slash) the engine asks the filesystem layer to create the corresponding
directory (with its parents, per the recursive `ensureFolder` contract)
under the target and opens no read stream; for a file entry it creates the
parent directory of the target file path (again recursively, even with no
explicit directory entry present) before the entry's read stream is
opened. -/
theorem claim_C8 (ctx : UnzipCtx) (t : String) (e : ZipEntry) :
    (isDirectoryName (normalizeName e.fileName) = true →
      handleEntryTrace ctx t e =
        [EngineAction.ensureFolder (FsPath.joined t (normalizeName e.fileName)),
         EngineAction.readEntry]) ∧
    (isDirectoryName (normalizeName e.fileName) = false →
      (handleEntryTrace ctx t e).take 2 =
        [EngineAction.ensureFolder (FsPath.parentOf
            (FsPath.joined t (normalizeName e.fileName))),
         EngineAction.openReadStream (normalizeName e.fileName)]) := by
  constructor
  · intro hd; simp [handleEntryTrace, hd]
  · intro hd; simp [handleEntryTrace, extractEntryTrace, hd]

/-- Claim C9: an entry is treated as a symbolic link exactly when its
computed mode masked with 0o170000 (61440) equals 0o120000 (40960); the
source policy `symlinkToFile` is false (materialize a real symlink)
exactly as the spec words it — on every platform except win32, and on
win32 only when `symlinkAsFileOnWindows` is explicitly false; when the
entry is a symlink and that policy applies, the engine reads the whole
decompressed stream as text and creates a real symlink at the target
pointing to that text, and otherwise writes the bytes as a regular file
with the computed mode. -/
theorem claim_C9 (ctx : UnzipCtx) (entry : ZipEntry) (fp : FsPath) :
    (!(symlinkToFile ctx)) = specRealSymlinkPolicy ctx ∧
    (((modeFromEntry entry.externalFileAttributes &&& 61440) == 40960
        && !(symlinkToFile ctx)) = true →
      writeEntryCommand ctx entry fp =
        WriteCommand.createSymlinkAt
          (entry.chunks.foldl (fun a c => a ++ c) []) fp) ∧
    (((modeFromEntry entry.externalFileAttributes &&& 61440) == 40960
        && !(symlinkToFile ctx)) = false →
      writeEntryCommand ctx entry fp =
        WriteCommand.writeFileStream fp
          (modeFromEntry entry.externalFileAttributes)) := by
  refine ⟨?_, ?_, ?_⟩
  · rcases ctx with ⟨p, opts⟩
    by_cases hp : p = "win32"
    · subst hp
      cases opts with
      | none => simp [symlinkToFile, specRealSymlinkPolicy]
      | some o =>
        by_cases hsf : o.symlinkAsFileOnWindows = some false <;>
          simp [symlinkToFile, specRealSymlinkPolicy, hsf, beq_iff_eq]
    · have hpb : (p == "win32") = false := beq_eq_false_iff_ne.mpr hp
      cases opts with
      | none => simp [symlinkToFile, specRealSymlinkPolicy, hp, hpb]
      | some o => simp [symlinkToFile, specRealSymlinkPolicy, hp, hpb]
  · intro h; simp [writeEntryCommand, h]
  · intro h; simp [writeEntryCommand, h]

/-- Claim C10: a throwing `onEntry` callback escapes the per-entry error
handling — the callback runs before the `try` block, so the handler trace
for that entry stops at the callback invocation (no catch action, no
settle), and a run containing a throwing entry ends with the promise
neither resolved nor rejected through the engine's error path (outcome
`escaped`, not `resolved` and not a rejection). -/
theorem claim_C10 (p t : String) (ov sf : Option Bool) (e : ZipEntry)
    (flag : Bool) (count : Nat) (ctx : UnzipCtx)
    (es : List (ZipEntry × CallbackBehavior)) :
    entryStep ⟨p, some ⟨ov, sf, true⟩⟩ t e CallbackBehavior.throws flag count =
      ⟨[EngineAction.entryStart (normalizeName e.fileName) flag,
        EngineAction.onEntryCall (normalizeName e.fileName)],
       flag, count, true⟩ ∧
    ((es.any fun q => hasOnEntry ctx && q.2 == CallbackBehavior.throws) = true →
      (runExtract ctx t es).2.2 = Outcome.escaped) := by
  constructor
  · cases flag <;> rfl
  · exact runExtract_escaped ctx t es

end ZipLib
